import Mathlib

/-!
Shallow embedding of the visit-tracking dashboard `app.py`
(repository DashboardVendasNWB).

The program loads two spreadsheet tables (a client roster `dClientes` and a
visit log `fVisitas`), normalizes their headers, left-joins the visits onto
the clients on a four-column composite key, coerces date and numeric
columns (`errors='coerce'` semantics: unparseable cells become null), applies
client / responsible / date-range filters, and computes several aggregate
views (planned visits in the next 15 days, status counts, days since last
completed visit, SLA status against `meta_dias`, clients never visited).

Modelling choices:
* a spreadsheet cell is either empty (pandas `NaN` / `NaT`) or a string;
* dates are integer day numbers (pandas timestamps truncated to days; the
  string-format parsing done by `pd.to_datetime` is library code, modelled
  as integer parsing with the same coerce-to-null failure behaviour);
* numbers are integers (`pd.to_numeric` coercion modelled likewise);
* a dataframe is a list of typed rows, in order; pandas `NaN` cells are
  `Option.none` after coercion.
-/

namespace Dashboard

/-- A raw spreadsheet cell: either empty (pandas `NaN`) or a string value. -/
inductive Cell where
  | empty : Cell
  | val : String → Cell
deriving DecidableEq, Repr

/-- Is a character an ASCII digit? -/
def isDigitChar (c : Char) : Bool :=
  decide (48 ≤ c.toNat) && decide (c.toNat ≤ 57)

/-- Accumulates the decimal value of a digit run; any non-digit character
makes the whole string non-numeric. -/
def parseNatAux : List Char → Nat → Option Nat
  | [], acc => some acc
  | c :: cs, acc =>
    if isDigitChar c then parseNatAux cs (acc * 10 + (c.toNat - 48)) else none

/-- Parses an optionally negated decimal integer string; anything else is
rejected. -/
def parseIntStr (s : String) : Option Int :=
  match s.data with
  | [] => none
  | '-' :: [] => none
  | '-' :: c :: cs => (parseNatAux (c :: cs) 0).map (fun n => -(n : Int))
  | c :: cs => (parseNatAux (c :: cs) 0).map (fun n => (n : Int))

/-- Models `pd.to_numeric(col, errors='coerce')` on one cell: a numeric
string becomes a number, anything else (including an empty cell) becomes
null. Fractional literals are not modelled; day counts are integers. -/
def toNumeric : Cell → Option Int
  | Cell.empty => none
  | Cell.val s => parseIntStr s

/-- Models `pd.to_datetime(col, errors='coerce')` on one cell: a parseable
date becomes a timestamp (an integer day number here, the calendar-string
decoding being library code), anything else (including an empty cell)
becomes null (`NaT`). -/
def toDatetime : Cell → Option Int
  | Cell.empty => none
  | Cell.val s => parseIntStr s

/-- The four-column composite merge key
`['codigo_responsavel', 'responsavel', 'codigo_cliente', 'cliente']`
(app.py line 36). -/
structure Key where
  codigo_responsavel : String
  responsavel : String
  codigo_cliente : String
  cliente : String
deriving DecidableEq, Repr

/-- One row of the client roster `dClientes`: the composite key plus the
client's SLA target `meta_dias` (still a raw cell at load time). -/
structure Client where
  key : Key
  meta_dias : Cell
deriving DecidableEq, Repr

/-- One row of the visit log `fVisitas`: the composite key plus the visit's
own fields (dates still raw cells at load time). -/
structure Visit where
  key : Key
  status : String
  foco : String
  data_realizada : Cell
  data_planejada : Cell
deriving DecidableEq, Repr

/-- A row of `df_merged` right after `pd.merge` (app.py lines 45-47), before
the date / numeric coercions: visit fields plus the matched client's
`meta_dias` cell (empty when the visit matched no client row). -/
structure MergedRaw where
  key : Key
  status : String
  foco : String
  data_realizada : Cell
  data_planejada : Cell
  meta_dias : Cell
deriving DecidableEq, Repr

/-- A fully derived row of `df_merged` (and hence of `df_filtrado`): dates
parsed by `pd.to_datetime(errors='coerce')`, `meta_dias` coerced by
`pd.to_numeric(errors='coerce')`. -/
structure Row where
  key : Key
  status : String
  foco : String
  data_realizada : Option Int
  data_planejada : Option Int
  meta_dias : Option Int
deriving DecidableEq, Repr

/-- The client rows whose composite key equals `k` (the match set of one
left-merge probe). -/
def matchingClients (clientes : List Client) (k : Key) : List Client :=
  clientes.filter (fun c => c.key == k)

/-- The merged row for a visit that matched no client: the client columns
(`meta_dias`) are `NaN`. -/
def unmatchedRow (v : Visit) : MergedRaw :=
  { key := v.key, status := v.status, foco := v.foco,
    data_realizada := v.data_realizada, data_planejada := v.data_planejada,
    meta_dias := Cell.empty }

/-- The merged row for a visit matched with one client row. -/
def matchedRow (v : Visit) (c : Client) : MergedRaw :=
  { key := v.key, status := v.status, foco := v.foco,
    data_realizada := v.data_realizada, data_planejada := v.data_planejada,
    meta_dias := c.meta_dias }

/-- Left-merge output for a single visit row: pandas emits one row per
matching client row, and a single null-extended row when no client
matches. -/
def mergeOne (v : Visit) (clientes : List Client) : List MergedRaw :=
  let ms := matchingClients clientes v.key
  if ms.isEmpty then [unmatchedRow v] else ms.map (matchedRow v)

/-- `pd.merge(df_visitas, df_clientes, on=merge_cols, how='left')`
(app.py lines 45-47): the visit rows in order, each expanded into its
left-merge output. -/
def merge : List Visit → List Client → List MergedRaw
  | [], _ => []
  | v :: vs, clientes => mergeOne v clientes ++ merge vs clientes

/-- The date / numeric derivation pass of `load_data` (app.py lines 50-56)
on one merged row: parse the two date columns, coerce `meta_dias` to
numeric; every other field is copied unchanged. -/
def deriveRow (m : MergedRaw) : Row :=
  { key := m.key, status := m.status, foco := m.foco,
    data_realizada := toDatetime m.data_realizada,
    data_planejada := toDatetime m.data_planejada,
    meta_dias := toNumeric m.meta_dias }

/-- The reconciled table: left merge followed by the per-cell coercions.
This is the value `df_merged` returned by `load_data` on the success path. -/
def reconcile (visitas : List Visit) (clientes : List Client) : List Row :=
  (merge visitas clientes).map deriveRow

/-- ASCII lowering of one character (`str.lower()`; the headers of this
schema are ASCII). -/
def lowerChar (c : Char) : Char :=
  if 65 ≤ c.toNat ∧ c.toNat ≤ 90 then Char.ofNat (c.toNat + 32) else c

/-- Is a character whitespace for `str.strip()`? -/
def isSpaceChar (c : Char) : Bool :=
  c == ' ' || c == '\t' || c == '\n' || c == '\r'

/-- Removes leading and trailing whitespace (`str.strip()`). -/
def trimChars (l : List Char) : List Char :=
  ((l.dropWhile isSpaceChar).reverse.dropWhile isSpaceChar).reverse

/-- Header normalization `columns.str.strip().str.lower()`
(app.py lines 32-33). -/
def normalizeHeader (s : String) : String :=
  String.mk (trimChars (s.data.map lowerChar))

/-- The required merge columns (app.py line 36). -/
def merge_cols : List String :=
  ["codigo_responsavel", "responsavel", "codigo_cliente", "cliente"]

/-- The (fixed) error message shown when a merge column is missing
(app.py line 41). -/
def missingColsMessage : String :=
  "Colunas essenciais para o merge ausentes em uma das bases."

/-- The schema check of `load_data` (app.py lines 39-40): all four merge
columns must be present in the normalized headers of both tables. -/
def schemaOk (clienteCols visitaCols : List String) : Bool :=
  merge_cols.all (fun c => (clienteCols.map normalizeHeader).contains c) &&
  merge_cols.all (fun c => (visitaCols.map normalizeHeader).contains c)

/-- `load_data` (app.py lines 17-58), with the spreadsheet reading
abstracted into the typed row lists plus the raw header lists: normalize
headers, check the merge columns, and on success merge and derive the
typed columns. On failure the fixed error message is reported and the
merge is not performed. -/
def load_data (clienteCols visitaCols : List String)
    (visitas : List Visit) (clientes : List Client) :
    Except String (List Row) :=
  if schemaOk clienteCols visitaCols then
    Except.ok (reconcile visitas clientes)
  else
    Except.error missingColsMessage

/-! ### Filters (app.py section 3) -/

/-- Does a row pass the optional responsible-code filter? `none` means the
user selected "Todos" (no restriction); `some r` keeps only rows whose
`codigo_responsavel` equals `r` (app.py lines 153-155 and 387-398). -/
def respMatch : Option String → String → Bool
  | none, _ => true
  | some r, code => code == r

/-- Does a row pass the optional client-code filter (app.py lines 148-150)? -/
def clienteMatch : Option String → String → Bool
  | none, _ => true
  | some r, code => code == r

/-- One disjunct of the date mask: is a (possibly null) date inside
`[start_ts, end_ts)`? A null date (`NaT`) compares false, as in pandas
(app.py lines 166-173). -/
def cellInRange (d : Option Int) (start_ts end_ts : Int) : Bool :=
  match d with
  | none => false
  | some x => decide (start_ts ≤ x) && decide (x < end_ts)

/-- The date mask of one row (app.py lines 163-173): `data_realizada` or
`data_planejada` lies in `[start_ts, end_ts)`. -/
def date_mask (r : Row) (start_ts end_ts : Int) : Bool :=
  cellInRange r.data_realizada start_ts end_ts ||
  cellInRange r.data_planejada start_ts end_ts

/-- The date-range filter (app.py lines 157-176): `start_ts` is the chosen
start date and the exclusive upper bound is the chosen end date plus one
day, so that the whole final day is kept. -/
def filterByDate (rows : List Row) (start_date end_date : Int) : List Row :=
  rows.filter (fun r => date_mask r start_date (end_date + 1))

/-- The full filter pipeline building `df_filtrado` (app.py lines 145-176):
client filter, then responsible filter, then the date mask. -/
def df_filtrado (rows : List Row) (selCliente selResp : Option String)
    (start_date end_date : Int) : List Row :=
  filterByDate
    ((rows.filter (fun r => clienteMatch selCliente r.key.codigo_cliente)).filter
      (fun r => respMatch selResp r.key.codigo_responsavel))
    start_date end_date

/-! ### Aggregate views (app.py section 4) -/

/-- `df_proximos_15` (app.py lines 200-204): rows whose `data_planejada`
lies in `[hoje, hoje + 15]` and whose status is `'Planejado'`; a null
planned date compares false. -/
def dfProximos15 (rows : List Row) (hoje : Int) : List Row :=
  rows.filter (fun r =>
    match r.data_planejada with
    | none => false
    | some d => decide (hoje ≤ d) && decide (d ≤ hoje + 15) && r.status == "Planejado")

/-- `status_counts` (app.py lines 290-291): for each distinct status value,
the number of rows carrying it (`value_counts`, order of the sort by count
not modelled). -/
def statusCounts (rows : List Row) : List (String × Nat) :=
  ((rows.map (fun r => r.status)).dedup).map
    (fun s => (s, (rows.filter (fun r => r.status == s)).length))

/-- `clientes_unicos` (app.py line 261): the distinct client names of the
filtered table, first occurrence first. -/
def clientesUnicos (rows : List Row) : List String :=
  (rows.map (fun r => r.key.cliente)).dedup

/-- Does a row qualify for the "days since last completed visit" table
(app.py lines 313-316): status is `'Realizado'` and `data_realizada` is
not null? -/
def realizadaOk (r : Row) : Bool :=
  r.status == "Realizado" && r.data_realizada.isSome

/-- The distinct clients having at least one qualifying completed visit
(the group keys of the `groupby('cliente')` on app.py line 319). -/
def clientesComRealizadas (rows : List Row) : List String :=
  ((rows.filter realizadaOk).map (fun r => r.key.cliente)).dedup

/-- The non-null completed-visit dates of one client (the group fed to
`['data_realizada'].max()` on app.py line 319). -/
def datasRealizadas (rows : List Row) (c : String) : List Int :=
  rows.filterMap (fun r =>
    if r.status == "Realizado" && r.key.cliente == c then r.data_realizada else none)

/-- Maximum of a list of dates (`.max()` of a non-empty group). -/
def listMax : List Int → Option Int
  | [] => none
  | x :: xs =>
    match listMax xs with
    | none => some x
    | some m => some (max x m)

/-- `ultima_visita` (app.py lines 313-322): for each client with a
qualifying completed visit, the pair (client,
`hoje - max(data_realizada)` in whole days). Clients with no qualifying
visit do not appear. The sort on line 324 only reorders rows and is not
modelled. -/
def ultima_visita (rows : List Row) (hoje : Int) : List (String × Int) :=
  (clientesComRealizadas rows).filterMap (fun c =>
    (listMax (datasRealizadas rows c)).map (fun m => (c, hoje - m)))

/-- Per-row SLA classification (app.py lines 360-363): `"Atrasado"` when
`meta_dias` is not null and the days since the last visit exceed it,
otherwise `"Dentro do Prazo"`. -/
def Status_Visita (dias : Int) (meta : Option Int) : String :=
  match meta with
  | none => "Dentro do Prazo"
  | some t => if dias > t then "Atrasado" else "Dentro do Prazo"

/-- Worker for `drop_duplicates(keep='first')`: drops every pair whose
client was already seen. -/
def dropDupAux : List (String × Option Int) → List String → List (String × Option Int)
  | [], _ => []
  | p :: ps, seen =>
    if seen.contains p.1 then dropDupAux ps seen
    else p :: dropDupAux ps (p.1 :: seen)

/-- `drop_duplicates(subset='cliente', keep='first')` on the
`(cliente, meta_dias)` projection (app.py line 350): keep the first
occurrence of each client, in order, dropping all later ones. -/
def dropDupKeepFirst (l : List (String × Option Int)) : List (String × Option Int) :=
  dropDupAux l []

/-- `clientes_metas` (app.py line 350): one `(cliente, meta_dias)` pair per
client, taken from the first filtered row in which the client appears. -/
def clientes_metas (rows : List Row) : List (String × Option Int) :=
  dropDupKeepFirst (rows.map (fun r => (r.key.cliente, r.meta_dias)))

/-- Lookup of a client's `meta_dias` in a `(cliente, meta)` table: the
value of the first matching entry, null when the client is absent (pandas
leaves `NaN` for an unmatched left-merge row, which coincides with a
present-but-null meta, exactly as in the dataframe). -/
def metaLookup : List (String × Option Int) → String → Option Int
  | [], _ => none
  | p :: ps, c => if p.1 == c then p.2 else metaLookup ps c

/-- `clientes_com_metas` (app.py lines 342-363): the last-visit table
left-merged with `clientes_metas` on `cliente`, extended with the SLA
classification. Each entry is (cliente, dias desde a última visita,
meta_dias, Status_Visita). -/
def clientes_com_metas (rows : List Row) (hoje : Int) :
    List (String × Int × Option Int × String) :=
  (ultima_visita rows hoje).map (fun p =>
    let meta := metaLookup (clientes_metas rows) p.1
    (p.1, p.2, meta, Status_Visita p.2 meta))

/-- `clientes_nao_visitados_result` (app.py lines 385-403): the client
names of the (optionally responsible-filtered) roster that appear in no
(equally filtered) visit record of the full visit table, any status
counting as a visit. -/
def clientes_nao_visitados_result (clientes : List Client) (visitas : List Visit)
    (selResp : Option String) : List String :=
  let todos := ((clientes.filter (fun c => respMatch selResp c.key.codigo_responsavel)).map
    (fun c => c.key.cliente)).dedup
  let visitados := ((visitas.filter (fun v => respMatch selResp v.key.codigo_responsavel)).map
    (fun v => v.key.cliente)).dedup
  todos.filter (fun n => !(visitados.contains n))

/-! ### Top-level rendering flow (app.py lines 180-371) -/

/-- The aggregate views rendered below the empty-table guard; the modelled
subset of the dashboard's sections (15-day outlook, status counts, unique
clients, last-visit table, SLA table). -/
structure Views where
  proximos15 : List Row
  status_counts : List (String × Nat)
  clientes_unicos : List String
  ultima : List (String × Int)
  metas : List (String × Int × Option Int × String)
deriving DecidableEq, Repr

/-- Outcome of the script after the filters are applied: either the
early `st.warning` + `st.stop()` exit (app.py lines 181-183), or the
rendered views. -/
inductive RenderResult where
  | stopped : String → RenderResult
  | rendered : Views → RenderResult
deriving DecidableEq, Repr

/-- The warning shown before `st.stop()` when no row survives the filters
(app.py line 182). -/
def emptyWarning : String :=
  "Nenhum dado encontrado para os filtros selecionados."

/-- The dashboard body (app.py lines 180 onward): if the filtered table is
empty, warn and stop — nothing further is rendered; otherwise produce the
dependent views. -/
def render (rows : List Row) (hoje : Int) : RenderResult :=
  if rows.isEmpty then RenderResult.stopped emptyWarning
  else RenderResult.rendered
    { proximos15 := dfProximos15 rows hoje,
      status_counts := statusCounts rows,
      clientes_unicos := clientesUnicos rows,
      ultima := ultima_visita rows hoje,
      metas := clientes_com_metas rows hoje }

/-! ### Concrete sample data used by witnesses and counterexamples -/

/-- A sample composite key. -/
def kA : Key := ⟨"R1", "Alice", "C1", "Acme"⟩

/-- A second sample composite key (different client). -/
def kB : Key := ⟨"R1", "Alice", "C2", "Beta"⟩

/-- A completed visit to `kA` on day 100. -/
def vA : Visit := ⟨kA, "Realizado", "Safra", Cell.val "100", Cell.empty⟩

/-- A client row for `kA` with a 30-day SLA target. -/
def cA30 : Client := ⟨kA, Cell.val "30"⟩

/-- A second client row for the same key `kA` (duplicate key, 60-day target). -/
def cA60 : Client := ⟨kA, Cell.val "60"⟩

/-- A client row for `kA` whose `meta_dias` cell is empty. -/
def cAnull : Client := ⟨kA, Cell.empty⟩

/-- The reconciled row produced by matching `vA` with `cA30`. -/
def rA : Row := deriveRow (matchedRow vA cA30)

/-! ### Helper lemmas on the merge -/

/-- Under unique client keys, at most one client row matches any key. -/
lemma length_matchingClients_le_one (clientes : List Client) (k : Key)
    (h : (clientes.map (fun c => c.key)).Nodup) :
    (matchingClients clientes k).length ≤ 1 := by
  induction clientes with
  | nil => simp [matchingClients]
  | cons c cs ih =>
    simp only [List.map_cons, List.nodup_cons] at h
    obtain ⟨hnot, hnd⟩ := h
    simp only [matchingClients, List.filter_cons]
    by_cases hc : c.key == k
    · have hk : c.key = k := by simpa using hc
      have hnil : cs.filter (fun d => d.key == k) = [] := by
        rw [List.filter_eq_nil_iff]
        intro d hd hdk
        have hdk' : d.key = k := by simpa using hdk
        have hmem : d.key ∈ List.map (fun c => c.key) cs :=
          List.mem_map_of_mem (fun c => c.key) hd
        rw [hdk', ← hk] at hmem
        exact hnot hmem
      simp [hc, hnil]
    · simpa [hc] using ih hnd

/-- Under unique client keys, the left merge emits exactly one row per
visit row. -/
lemma length_mergeOne (v : Visit) (clientes : List Client)
    (h : (clientes.map (fun c => c.key)).Nodup) :
    (mergeOne v clientes).length = 1 := by
  unfold mergeOne
  by_cases he : (matchingClients clientes v.key).isEmpty
  · simp [he]
  · have hne : matchingClients clientes v.key ≠ [] := by
      simpa [List.isEmpty_iff] using he
    have h1 := length_matchingClients_le_one clientes v.key h
    have h2 : 1 ≤ (matchingClients clientes v.key).length :=
      List.length_pos.mpr hne
    simp only [he, Bool.false_eq_true, if_false, List.length_map]
    omega

/-- Membership in the merge output decomposes into a generating visit. -/
lemma mem_merge {r : MergedRaw} {vs : List Visit} {cs : List Client} :
    r ∈ merge vs cs ↔ ∃ v ∈ vs, r ∈ mergeOne v cs := by
  induction vs with
  | nil => simp [merge]
  | cons v vs ih =>
    simp only [merge, List.mem_append, ih, List.mem_cons]
    constructor
    · rintro (h | ⟨v', hv', hr⟩)
      · exact ⟨v, Or.inl rfl, h⟩
      · exact ⟨v', Or.inr hv', hr⟩
    · rintro ⟨v', (rfl | hv'), hr⟩
      · exact Or.inl hr
      · exact Or.inr ⟨v', hv', hr⟩

/-- Membership in the per-visit merge output: either the null-extended row
of an unmatched visit, or a matched row for one matching client. -/
lemma mem_mergeOne {r : MergedRaw} {v : Visit} {cs : List Client} :
    r ∈ mergeOne v cs ↔
      (matchingClients cs v.key = [] ∧ r = unmatchedRow v) ∨
      (∃ c ∈ matchingClients cs v.key, r = matchedRow v c) := by
  unfold mergeOne
  by_cases he : (matchingClients cs v.key).isEmpty
  · have hnil : matchingClients cs v.key = [] := by simpa [List.isEmpty_iff] using he
    simp [he, hnil, eq_comm]
  · have hnil : matchingClients cs v.key ≠ [] := by simpa [List.isEmpty_iff] using he
    simp only [he, Bool.false_eq_true, if_false, List.mem_map]
    constructor
    · rintro ⟨c, hc, rfl⟩
      exact Or.inr ⟨c, hc, rfl⟩
    · rintro (⟨h, _⟩ | ⟨c, hc, rfl⟩)
      · exact absurd h hnil
      · exact ⟨c, hc, rfl⟩

/-- Elements of the match set are client rows carrying the probed key. -/
lemma mem_matchingClients {c : Client} {cs : List Client} {k : Key} :
    c ∈ matchingClients cs k ↔ c ∈ cs ∧ c.key = k := by
  simp [matchingClients, List.mem_filter]

/-! ### C1 -/

/-- C1, amended: provided the four-field composite key is unique in the
client table (the spec assumes but does not enforce this uniqueness), the
left join emits exactly one output row per input visit row, so the
reconciled table's row count equals the visit table's row count. -/
theorem c1_reconcile_length (visitas : List Visit) (clientes : List Client)
    (h : (clientes.map (fun c => c.key)).Nodup) :
    (reconcile visitas clientes).length = visitas.length := by
  unfold reconcile
  rw [List.length_map]
  induction visitas with
  | nil => rfl
  | cons v vs ih =>
    simp [merge, List.length_append, length_mergeOne v clientes h, ih]
    omega

/-- Witness for `c1_reconcile_length` at a concrete input. -/
theorem c1_reconcile_length_witness :
    (reconcile [vA] [cA30]).length = [vA].length :=
  c1_reconcile_length [vA] [cA30] (by decide)

/-- C1 counterexample: with the same composite key duplicated in the
client table, one visit row produces two reconciled rows, so the
reconciled row count exceeds the visit row count. -/
theorem c1_counterexample :
    (reconcile [vA] [cA30, cA60]).length = 2 ∧ [vA].length = 1 := by decide

/-! ### C2 -/

/-- C2, amended: every reconciled row either carries the numeric coercion
of the `meta_dias` of a client row matching its composite key, or — when
no client row matches — a null `meta_dias`. Hence the SLA field is
non-null only if a match exists; but a match whose own target is null (or
non-numeric) also yields a null SLA field, so non-nullness is not
equivalent to the existence of a match. -/
theorem c2_meta_dias_characterization (visitas : List Visit) (clientes : List Client) :
    ∀ r ∈ reconcile visitas clientes,
      (∃ c ∈ clientes, c.key = r.key ∧ r.meta_dias = toNumeric c.meta_dias) ∨
      ((∀ c ∈ clientes, c.key ≠ r.key) ∧ r.meta_dias = none) := by
  intro r hr
  obtain ⟨m, hm, rfl⟩ := List.mem_map.mp hr
  obtain ⟨v, _, hmo⟩ := mem_merge.mp hm
  rcases mem_mergeOne.mp hmo with ⟨hnil, rfl⟩ | ⟨c, hc, rfl⟩
  · refine Or.inr ⟨?_, rfl⟩
    intro c hcmem hck
    have : c ∈ matchingClients clientes v.key :=
      mem_matchingClients.mpr ⟨hcmem, hck⟩
    simp [hnil] at this
  · obtain ⟨hcmem, hck⟩ := mem_matchingClients.mp hc
    exact Or.inl ⟨c, hcmem, hck, rfl⟩

/-- Witness for `c2_meta_dias_characterization` at a concrete input. -/
theorem c2_meta_dias_characterization_witness :
    (∃ c ∈ [cA30], c.key = rA.key ∧ rA.meta_dias = toNumeric c.meta_dias) ∨
    ((∀ c ∈ [cA30], c.key ≠ rA.key) ∧ rA.meta_dias = none) :=
  c2_meta_dias_characterization [vA] [cA30] rA (by decide)

/-- C2 counterexample: a client row matching the visit's key whose own
`meta_dias` cell is empty yields a reconciled row with a null SLA field
even though a matching ClientRecord exists, refuting the claimed
"non-null iff a match exists". -/
theorem c2_counterexample :
    ¬ (∀ r ∈ reconcile [vA] [cAnull],
        (r.meta_dias ≠ none ↔ ∃ c ∈ [cAnull], c.key = r.key)) := by decide

/-! ### C3 -/

/-- C3: the date-parsing / numeric-coercion pass is total and row-wise: it
never drops a row (the derived table has exactly the same length), every
non-coerced field of each row is unchanged, and each coerced cell is
exactly the coercion of the raw cell — which is null precisely when the
raw cell is empty or fails to parse, by definition of `toDatetime` and
`toNumeric`. -/
theorem c3_derive_total (ms : List MergedRaw) :
    ((ms.map deriveRow).length = ms.length) ∧
    ∀ m ∈ ms,
      (deriveRow m).key = m.key ∧
      (deriveRow m).status = m.status ∧
      (deriveRow m).foco = m.foco ∧
      (deriveRow m).data_realizada = toDatetime m.data_realizada ∧
      (deriveRow m).data_planejada = toDatetime m.data_planejada ∧
      (deriveRow m).meta_dias = toNumeric m.meta_dias := by
  refine ⟨List.length_map _ _, ?_⟩
  intro m _
  exact ⟨rfl, rfl, rfl, rfl, rfl, rfl⟩

/-- Witness for `c3_derive_total` on a row with a malformed date cell. -/
theorem c3_derive_total_witness :
    (deriveRow ⟨kA, "Planejado", "Safra", Cell.val "not-a-date", Cell.empty, Cell.val "x"⟩).key = kA ∧
    (deriveRow ⟨kA, "Planejado", "Safra", Cell.val "not-a-date", Cell.empty, Cell.val "x"⟩).data_realizada = none :=
  have h := (c3_derive_total [⟨kA, "Planejado", "Safra", Cell.val "not-a-date", Cell.empty, Cell.val "x"⟩]).2
    ⟨kA, "Planejado", "Safra", Cell.val "not-a-date", Cell.empty, Cell.val "x"⟩ (by decide)
  ⟨h.1, by rw [h.2.2.2.1]; decide⟩

/-! ### C4 -/

/-- C4: the SLA classification returns `"Atrasado"` exactly when the
target is non-null and the days-since value exceeds it; in every other
case — a null target included, whatever the days value — it returns
`"Dentro do Prazo"`. -/
theorem c4_status_visita (d : Int) (t : Option Int) :
    (Status_Visita d t = "Atrasado" ↔ ∃ m, t = some m ∧ d > m) ∧
    (Status_Visita d t = "Dentro do Prazo" ↔ ¬ ∃ m, t = some m ∧ d > m) := by
  cases t with
  | none => simp [Status_Visita]
  | some m =>
    by_cases hd : d > m
    · simp [Status_Visita, hd]
    · simp [Status_Visita, hd]

/-! ### C6 -/

/-- A (possibly null) date cell passes the half-open range test iff it is
non-null and inside the range; a null date always fails, as in pandas. -/
lemma cellInRange_iff {d : Option Int} {a b : Int} :
    cellInRange d a b = true ↔ ∃ x, d = some x ∧ a ≤ x ∧ x < b := by
  cases d <;> simp [cellInRange]

/-- C6: the date-range filter keeps a row iff its `data_realizada` or its
`data_planejada` lies in `[start, end]`, both endpoints inclusive (the
implementation compares `≥ start` and `< end + 1 day`); a row whose two
dates are both null never passes the filter. -/
theorem c6_date_filter (rows : List Row) (s e : Int) :
    (∀ r, r ∈ filterByDate rows s e ↔
      r ∈ rows ∧
      ((∃ x, r.data_realizada = some x ∧ s ≤ x ∧ x ≤ e) ∨
       (∃ x, r.data_planejada = some x ∧ s ≤ x ∧ x ≤ e))) ∧
    (∀ r, r.data_realizada = none → r.data_planejada = none →
      r ∉ filterByDate rows s e) := by
  constructor
  · intro r
    simp only [filterByDate, List.mem_filter, date_mask, Bool.or_eq_true,
      cellInRange_iff, Int.lt_add_one_iff]
  · intro r h1 h2 hmem
    rw [filterByDate, List.mem_filter] at hmem
    simp [date_mask, cellInRange, h1, h2] at hmem

/-- Witness for `c6_date_filter`: a row whose completed date is the upper
endpoint is kept (the end of the range is inclusive). -/
theorem c6_date_filter_witness : rA ∈ filterByDate [rA] 90 100 :=
  ((c6_date_filter [rA] 90 100).1 rA).mpr (by decide)

/-! ### C7 -/

/-- A client row for key `kB` (never visited in the samples). -/
def cB : Client := ⟨kB, Cell.empty⟩

/-- C7: the not-yet-visited report is exactly the set difference between
the client names of the (optionally responsible-filtered) roster and the
client names occurring in any (equally filtered) visit record — a visit
of any status counts; and the result lists each such name once. -/
theorem c7_clientes_nao_visitados (clientes : List Client) (visitas : List Visit)
    (selResp : Option String) :
    (∀ n, n ∈ clientes_nao_visitados_result clientes visitas selResp ↔
      ((∃ c ∈ clientes, respMatch selResp c.key.codigo_responsavel = true ∧
          c.key.cliente = n) ∧
       ¬ ∃ v ∈ visitas, respMatch selResp v.key.codigo_responsavel = true ∧
          v.key.cliente = n)) ∧
    (clientes_nao_visitados_result clientes visitas selResp).Nodup := by
  constructor
  · intro n
    simp [clientes_nao_visitados_result, List.mem_filter, List.mem_dedup, List.mem_map]
    tauto
  · exact List.Nodup.filter _ (List.nodup_dedup _)

/-- Witness for `c7_clientes_nao_visitados`: with roster {Acme, Beta} and
a single visit to Acme, Beta is reported as not visited. -/
theorem c7_clientes_nao_visitados_witness :
    "Beta" ∈ clientes_nao_visitados_result [cA30, cB] [vA] none :=
  ((c7_clientes_nao_visitados [cA30, cB] [vA] none).1 "Beta").mpr (by decide)

/-! ### C5 -/

/-- The group maximum is `none` exactly on an empty group. -/
lemma listMax_eq_none {l : List Int} : listMax l = none ↔ l = [] := by
  cases l with
  | nil => simp [listMax]
  | cons x xs =>
    cases h : listMax xs <;> simp [listMax, h]

/-- The group maximum is `some m` exactly when `m` is attained and bounds
every element of the group. -/
lemma listMax_eq_some_iff : ∀ {l : List Int} {m : Int},
    listMax l = some m ↔ m ∈ l ∧ ∀ x ∈ l, x ≤ m := by
  intro l
  induction l with
  | nil => intro m; simp [listMax]
  | cons x xs ih =>
    intro m
    cases h : listMax xs with
    | none =>
      have hnil : xs = [] := listMax_eq_none.mp h
      subst hnil
      simp only [listMax, List.mem_singleton, Option.some.injEq]
      constructor
      · rintro rfl
        exact ⟨rfl, fun y hy => le_of_eq hy⟩
      · rintro ⟨rfl, _⟩; rfl
    | some k =>
      obtain ⟨hkmem, hkub⟩ := ih.mp h
      simp only [listMax, h, Option.some.injEq, List.mem_cons]
      constructor
      · rintro rfl
        refine ⟨?_, ?_⟩
        · rcases max_choice x k with hm | hm
          · exact Or.inl hm
          · exact Or.inr (by rw [hm]; exact hkmem)
        · rintro y (rfl | hy)
          · exact le_max_left _ _
          · exact le_trans (hkub y hy) (le_max_right _ _)
      · rintro ⟨hmem, hub⟩
        have h1 : max x k ≤ m :=
          max_le (hub x (Or.inl rfl)) (hub k (Or.inr hkmem))
        have h2 : m ≤ max x k := by
          rcases hmem with rfl | hm
          · exact le_max_left _ _
          · exact le_trans (hkub m hm) (le_max_right _ _)
        exact le_antisymm h1 h2

/-- Membership in a client's completed-visit date group. -/
lemma mem_datasRealizadas {rows : List Row} {c : String} {x : Int} :
    x ∈ datasRealizadas rows c ↔
      ∃ r ∈ rows, r.status = "Realizado" ∧ r.key.cliente = c ∧
        r.data_realizada = some x := by
  rw [datasRealizadas, List.mem_filterMap]
  constructor
  · rintro ⟨r, hr, hf⟩
    by_cases h : (r.status == "Realizado" && r.key.cliente == c) = true
    · rw [if_pos h] at hf
      simp only [Bool.and_eq_true, beq_iff_eq] at h
      exact ⟨r, hr, h.1, h.2, hf⟩
    · rw [if_neg h] at hf
      exact absurd hf (by simp)
  · rintro ⟨r, hr, hs, hc, hd⟩
    exact ⟨r, hr, by simp [hs, hc, hd]⟩

/-- Membership among the group keys of the last-visit aggregation. -/
lemma mem_clientesComRealizadas {rows : List Row} {c : String} :
    c ∈ clientesComRealizadas rows ↔
      ∃ r ∈ rows, r.status = "Realizado" ∧ r.data_realizada.isSome ∧
        r.key.cliente = c := by
  simp only [clientesComRealizadas, List.mem_dedup, List.mem_map, List.mem_filter,
    realizadaOk, Bool.and_eq_true, beq_iff_eq]
  constructor
  · rintro ⟨r, ⟨hr, hs, hd⟩, rfl⟩
    exact ⟨r, hr, hs, hd, rfl⟩
  · rintro ⟨r, hr, hs, hd, rfl⟩
    exact ⟨r, ⟨hr, hs, hd⟩, rfl⟩

/-- Membership in the last-visit table, expressed through the group keys
and the group maximum. -/
lemma mem_ultima_visita {rows : List Row} {hoje : Int} {c : String} {d : Int} :
    (c, d) ∈ ultima_visita rows hoje ↔
      c ∈ clientesComRealizadas rows ∧
      ∃ m, listMax (datasRealizadas rows c) = some m ∧ d = hoje - m := by
  rw [ultima_visita, List.mem_filterMap]
  constructor
  · rintro ⟨c', hc', hmap⟩
    rw [Option.map_eq_some'] at hmap
    obtain ⟨m, hm, heq⟩ := hmap
    have h1 : c' = c := congrArg Prod.fst heq
    have h2 : hoje - m = d := congrArg Prod.snd heq
    subst h1
    subst h2
    exact ⟨hc', m, hm, rfl⟩
  · rintro ⟨hc, m, hm, rfl⟩
    exact ⟨c, hc, by rw [hm]; rfl⟩

/-- C5: `(c, d)` appears in the days-since-last-visit table iff some row
of the table is a completed (`"Realizado"`) visit of client `c` with a
non-null `data_realizada` equal to a maximum date `m` among all such rows,
and `d` is the reference date minus `m` in whole days; in particular a
client with no completed, dated visit row is absent from the table. -/
theorem c5_ultima_visita_spec (rows : List Row) (hoje : Int) (c : String) (d : Int) :
    (c, d) ∈ ultima_visita rows hoje ↔
      ∃ m, (∃ r ∈ rows, r.status = "Realizado" ∧ r.key.cliente = c ∧
              r.data_realizada = some m) ∧
           (∀ r ∈ rows, r.status = "Realizado" → r.key.cliente = c →
              ∀ x, r.data_realizada = some x → x ≤ m) ∧
           d = hoje - m := by
  rw [mem_ultima_visita]
  constructor
  · rintro ⟨hc, m, hmax, rfl⟩
    obtain ⟨hmem, hub⟩ := listMax_eq_some_iff.mp hmax
    obtain ⟨r, hr, hs, hrc, hd⟩ := mem_datasRealizadas.mp hmem
    refine ⟨m, ⟨r, hr, hs, hrc, hd⟩, ?_, rfl⟩
    intro r' hr' hs' hc' x hx
    exact hub x (mem_datasRealizadas.mpr ⟨r', hr', hs', hc', hx⟩)
  · rintro ⟨m, ⟨r, hr, hs, hrc, hd⟩, hub, rfl⟩
    have hcc : c ∈ clientesComRealizadas rows :=
      mem_clientesComRealizadas.mpr ⟨r, hr, hs, by simp [hd], hrc⟩
    have hmax : listMax (datasRealizadas rows c) = some m := by
      rw [listMax_eq_some_iff]
      refine ⟨mem_datasRealizadas.mpr ⟨r, hr, hs, hrc, hd⟩, ?_⟩
      intro x hx
      obtain ⟨r', hr', hs', hc', hx'⟩ := mem_datasRealizadas.mp hx
      exact hub r' hr' hs' hc' x hx'
    exact ⟨hcc, m, hmax, rfl⟩

/-- Witness for `c5_ultima_visita_spec`: one completed visit on day 100
viewed from day 145 yields 45 days since the last visit. -/
theorem c5_ultima_visita_spec_witness :
    ("Acme", 45) ∈ ultima_visita (reconcile [vA] [cA30]) 145 :=
  (c5_ultima_visita_spec (reconcile [vA] [cA30]) 145 "Acme" 45).mpr
    ⟨100, by decide, by
      intro r hr hs hc x hx
      have hrA : r = rA := by
        have he : reconcile [vA] [cA30] = [rA] := by decide
        rw [he] at hr
        simpa using hr
      subst hrA
      have h100 : rA.data_realizada = some 100 := by decide
      rw [h100] at hx
      injection hx with h
      omega, by decide⟩

/-! ### C10 -/

/-- Looking a not-yet-seen client up in the deduplicated table gives the
same answer as looking it up in the raw table: `keep='first'` keeps
exactly the entry the lookup would find. -/
lemma metaLookup_dropDupAux (l : List (String × Option Int)) (seen : List String)
    (c : String) (h : c ∉ seen) :
    metaLookup (dropDupAux l seen) c = metaLookup l c := by
  induction l generalizing seen with
  | nil => rfl
  | cons p ps ih =>
    simp only [dropDupAux]
    by_cases hp : seen.contains p.1 = true
    · rw [if_pos hp]
      have hpmem : p.1 ∈ seen := List.elem_iff.mp hp
      have hpc : ¬ (p.1 == c) = true := by
        simp only [beq_iff_eq]
        rintro rfl
        exact h hpmem
      rw [ih seen h, metaLookup, if_neg hpc]
    · rw [if_neg hp]
      by_cases hc : (p.1 == c) = true
      · rw [metaLookup, metaLookup, if_pos hc, if_pos hc]
      · have hnot : c ∉ p.1 :: seen := by
          intro hcm
          rcases List.mem_cons.mp hcm with rfl | hcm
          · exact hc (by simp)
          · exact h hcm
        rw [metaLookup, metaLookup, if_neg hc, if_neg hc, ih (p.1 :: seen) hnot]

/-- If a client occurs in the table, the `(cliente, meta_dias)` lookup
returns the `meta_dias` of the first row in which the client occurs. -/
lemma metaLookup_first (rows : List Row) (c : String)
    (h : ∃ r ∈ rows, r.key.cliente = c) :
    ∃ pre r post, rows = pre ++ r :: post ∧ r.key.cliente = c ∧
      (∀ r' ∈ pre, r'.key.cliente ≠ c) ∧
      metaLookup (rows.map (fun r => (r.key.cliente, r.meta_dias))) c = r.meta_dias := by
  induction rows with
  | nil => simp at h
  | cons r0 rs ih =>
    by_cases hc : r0.key.cliente = c
    · exact ⟨[], r0, rs, rfl, hc, by simp, by simp [metaLookup, hc]⟩
    · have h' : ∃ r ∈ rs, r.key.cliente = c := by
        obtain ⟨r, hr, hrc⟩ := h
        rcases List.mem_cons.mp hr with rfl | hr'
        · exact absurd hrc hc
        · exact ⟨r, hr', hrc⟩
      obtain ⟨pre, r, post, heq, hrc, hpre, hlook⟩ := ih h'
      refine ⟨r0 :: pre, r, post, by rw [heq, List.cons_append], hrc, ?_, ?_⟩
      · intro r' hr'
        rcases List.mem_cons.mp hr' with rfl | hr''
        · exact hc
        · exact hpre r' hr''
      · simp only [List.map_cons, metaLookup, beq_iff_eq]
        rw [if_neg hc]
        exact hlook

/-- C10: every entry of the SLA-breach table carries, as its `meta_dias`,
the value of the first row of the filtered table in which its client
appears — so when a client occurs with several distinct `meta_dias`
values, all but the first occurrence are ignored. -/
theorem c10_metas_first_occurrence (rows : List Row) (hoje : Int)
    (c : String) (d : Int) (m : Option Int) (s : String)
    (hmem : (c, d, m, s) ∈ clientes_com_metas rows hoje) :
    ∃ pre r post, rows = pre ++ r :: post ∧ r.key.cliente = c ∧
      (∀ r' ∈ pre, r'.key.cliente ≠ c) ∧ m = r.meta_dias := by
  rw [clientes_com_metas, List.mem_map] at hmem
  obtain ⟨p, hp, heq⟩ := hmem
  obtain ⟨pc, pd⟩ := p
  have hc : pc = c := congrArg (fun q => q.fst) heq
  subst hc
  have hm : metaLookup (clientes_metas rows) pc = m :=
    congrArg (fun q => q.snd.snd.fst) heq
  obtain ⟨hck, -⟩ := mem_ultima_visita.mp hp
  obtain ⟨r0, hr0, -, -, hr0c⟩ := mem_clientesComRealizadas.mp hck
  obtain ⟨pre, r, post, hsplit, hrc, hpre, hlook⟩ :=
    metaLookup_first rows pc ⟨r0, hr0, hr0c⟩
  refine ⟨pre, r, post, hsplit, hrc, hpre, ?_⟩
  rw [← hm, clientes_metas, dropDupKeepFirst,
    metaLookup_dropDupAux _ [] pc (by simp), hlook]

/-- Witness for `c10_metas_first_occurrence`: a client appearing twice
with targets 30 then 60 gets the first target, 30. -/
theorem c10_metas_first_occurrence_witness :
    ∃ pre r post,
      [rA, deriveRow (matchedRow vA cA60)] = pre ++ r :: post ∧
      r.key.cliente = "Acme" ∧ (∀ r' ∈ pre, r'.key.cliente ≠ "Acme") ∧
      some 30 = r.meta_dias :=
  c10_metas_first_occurrence [rA, deriveRow (matchedRow vA cA60)] 145
    "Acme" 45 (some 30) "Atrasado" (by decide)

/-! ### C8 -/

/-- C8, amended: when the filtered table is empty the script shows one
fixed warning and stops — no dependent view is produced at all; the
dependent views are produced exactly when the filtered table is
non-empty. -/
theorem c8_empty_stops (rows : List Row) (hoje : Int) :
    (rows = [] → render rows hoje = RenderResult.stopped emptyWarning) ∧
    (rows ≠ [] → ∃ v, render rows hoje = RenderResult.rendered v) := by
  constructor
  · rintro rfl
    rfl
  · intro h
    have he : rows.isEmpty = false := by simpa [List.isEmpty_iff] using h
    exact ⟨_, by rw [render, he]; rfl⟩

/-- Witness for `c8_empty_stops` at concrete inputs: the empty table stops
with the warning, a one-row table renders views. -/
theorem c8_empty_stops_witness :
    render [] 0 = RenderResult.stopped emptyWarning ∧
    ∃ v, render [rA] 0 = RenderResult.rendered v :=
  ⟨(c8_empty_stops [] 0).1 rfl, (c8_empty_stops [rA] 0).2 (by decide)⟩

/-- C8 counterexample: on an empty filtered table the script does not
produce the dependent views in any form — it stops after a warning — so
the claim that the views are still produced (each in a "no data" state)
fails at the concrete empty input. -/
theorem c8_counterexample :
    render [] 0 = RenderResult.stopped emptyWarning ∧
    ¬ ∃ v, render [] 0 = RenderResult.rendered v := by
  refine ⟨rfl, ?_⟩
  rintro ⟨v, hv⟩
  rw [show render [] 0 = RenderResult.stopped emptyWarning from rfl] at hv
  exact RenderResult.noConfusion hv

/-! ### C9 -/

/-- C9, amended: if any of the four join-key columns is missing from the
normalized headers of either table, `load_data` fails before the join —
but with one fixed, generic error message that does not name the missing
columns. -/
theorem c9_missing_column_fails (clienteCols visitaCols : List String)
    (visitas : List Visit) (clientes : List Client)
    (h : ∃ col ∈ merge_cols, col ∉ clienteCols.map normalizeHeader ∨
          col ∉ visitaCols.map normalizeHeader) :
    load_data clienteCols visitaCols visitas clientes =
      Except.error missingColsMessage := by
  have hs : schemaOk clienteCols visitaCols = false := by
    rw [Bool.eq_false_iff]
    intro hOk
    rw [schemaOk, Bool.and_eq_true, List.all_eq_true, List.all_eq_true] at hOk
    obtain ⟨h1, h2⟩ := hOk
    obtain ⟨col, hcol, hmiss⟩ := h
    rcases hmiss with hm | hm
    · exact hm (List.elem_iff.mp (h1 col hcol))
    · exact hm (List.elem_iff.mp (h2 col hcol))
  rw [load_data, hs]
  rfl

/-- Witness for `c9_missing_column_fails`: a client table lacking the
`cliente` column makes the load fail with the generic message. -/
theorem c9_missing_column_fails_witness :
    load_data ["codigo_responsavel", "responsavel", "codigo_cliente"] merge_cols
      [vA] [cA30] = Except.error missingColsMessage :=
  c9_missing_column_fails ["codigo_responsavel", "responsavel", "codigo_cliente"]
    merge_cols [vA] [cA30] (by decide)

/-- C9 counterexample: two loads with different missing join-key columns
(`cliente` in the first, `codigo_responsavel` in the second) fail with
literally the same fixed message, so the error cannot be naming the
missing columns. -/
theorem c9_counterexample :
    load_data ["codigo_responsavel", "responsavel", "codigo_cliente"] merge_cols
      [] [] = Except.error missingColsMessage ∧
    load_data ["responsavel", "codigo_cliente", "cliente"] merge_cols
      [] [] = Except.error missingColsMessage := by
  exact ⟨rfl, rfl⟩

end Dashboard
